import Mathlib

/-
Verification of the snapshot-exporter handler (src/lambda_function.py).

The handler scans a DynamoDB table, infers a flat all-string schema from
the first record, encodes the record set as a Parquet buffer and uploads
it to a fixed S3 key.  External services (the table scan, the columnar
encoder, the object store) are modelled explicitly; the handler's control
flow is translated line by line from the source.
-/

namespace SnapshotExporter

/-- A record: a mapping from field name to value, key/value pairs in
insertion order (a DynamoDB item as a Python dict; values treated
uniformly as strings per the data model). -/
abbrev Record := List (String × String)

/-- The response of one DynamoDB `table.scan()` call, as the handler sees
it: an optional "Items" field (the handler defaults it to `[]` with
`response.get("Items", [])`, line 21). -/
structure ScanResponse where
  Items : Option (List Record)
  deriving Repr, DecidableEq

/-- Model of the DynamoDB service side of `scan`: the table's full
contents as the sequence of pages the service would paginate it into. -/
structure DynamoTable where
  pages : List (List Record)
  deriving Repr, DecidableEq

/-- The full contents of the source table (all pages). -/
def DynamoTable.allItems (t : DynamoTable) : List Record :=
  t.pages.flatten

/-- One `table.scan()` call with no ExclusiveStartKey (line 20): the
service returns only the first page of items; continuation pages are
available only through follow-up calls the handler never makes. -/
def DynamoTable.scan (t : DynamoTable) : ScanResponse :=
  { Items := some (t.pages.headD []) }

/-- A Spark data type; the handler only ever uses StringType (line 31). -/
inductive DataType where
  | StringType
  deriving Repr, DecidableEq

/-- pyspark StructField: field name, type, nullable flag. -/
structure StructField where
  name : String
  dataType : DataType
  nullable : Bool
  deriving Repr, DecidableEq

/-- Line 31: `StructType([StructField(key, StringType(), True) for key in
data[0].keys()])` — the schema built from the keys of the first record,
in their order in that record. -/
def inferSchema (first : Record) : List StructField :=
  first.map (fun kv => ⟨kv.1, DataType.StringType, true⟩)

/-- The self-describing columnar buffer: embedded schema plus the rows'
column values in schema order (`none` encodes a null cell). -/
structure ParquetFile where
  schema : List StructField
  rows : List (List (Option String))
  deriving Repr, DecidableEq

/-- One record encoded against a schema: for each schema field, the
record's value under that field name, looked up by name. -/
def encodeRow (schema : List StructField) (r : Record) : List (Option String) :=
  schema.map (fun f => List.lookup f.name r)

/-- Does the key set of a record coincide (as a set) with a schema's
field-name set? -/
def keySetEq (ks ns : List String) : Bool :=
  decide ((∀ k ∈ ks, k ∈ ns) ∧ (∀ n ∈ ns, n ∈ ks))

/-- Modelled from the spec: the columnar-encoding step (lines 28-38 —
Spark session, `createDataFrame(data, schema)`, `df.write.parquet`), whose
implementation lives in the external data-processing library, not in this
repository.  Per the spec, "any row whose shape conflicts with the
inferred schema may produce a serialization error"; rows of uniform shape
encode into a single self-describing columnar buffer. -/
def encodeParquet (schema : List StructField) (data : List Record) :
    Except String ParquetFile :=
  if data.all (fun r => keySetEq (r.map Prod.fst) (schema.map StructField.name)) then
    .ok ⟨schema, data.map (encodeRow schema)⟩
  else
    .error "serialization error: row shape conflicts with the inferred schema"

/-- Reading the columnar buffer back: each row becomes the record pairing
each schema field name with its (non-null) cell value. -/
def decodeRow (schema : List StructField) (vals : List (Option String)) : Record :=
  (schema.zip vals).filterMap (fun fv => fv.2.map (fun v => (fv.1.name, v)))

/-- Decode a whole columnar buffer back to its records. -/
def decodeParquet (pq : ParquetFile) : List Record :=
  pq.rows.map (decodeRow pq.schema)

/-- An object stored in the object store: its body (the columnar buffer
it was written from) and its declared content type. -/
structure S3Object where
  body : ParquetFile
  contentType : String
  deriving Repr, DecidableEq

/-- The object store: a finite map from (bucket, key) to object. -/
abbrev S3State := List ((String × String) × S3Object)

/-- `s3.put_object` (lines 41-46): stores the object under (bucket, key),
replacing any object previously there (full overwrite). -/
def S3State.put (s : S3State) (bucket key : String) (o : S3Object) : S3State :=
  ((bucket, key), o) :: s.filter (fun e => decide (e.1 ≠ (bucket, key)))

/-- Look up the object currently stored under (bucket, key). -/
def S3State.get : S3State → String → String → Option S3Object
  | [], _, _ => none
  | (bk, o) :: rest, bucket, key =>
    if bk = (bucket, key) then some o else S3State.get rest bucket key

/-- The dict returned by the handler: statusCode and body. -/
structure HandlerResult where
  statusCode : Nat
  body : String
  deriving Repr, DecidableEq

/-- Observable side effects of one invocation, in order: the table scan,
the columnar-encoding step, the object-store write. -/
inductive Effect where
  | scan
  | encode
  | put (bucket key : String)
  deriving Repr, DecidableEq

/-- Lines 16-48 (`lambda_handler`): the scan response is the value
returned by `table.scan()`; `event` and `context` are accepted but
unused.  Returns the handler's result (`.error` for an exception
propagated to the runtime), the resulting object-store state, and the
trace of side effects performed. -/
def lambda_handler {E C : Type} (bucketName : String) (event : E) (context : C)
    (response : ScanResponse) (s3 : S3State) :
    Except String HandlerResult × S3State × List Effect :=
  match response.Items.getD [] with
  | [] =>
    (.ok ⟨200, "No data to backup"⟩, s3, [Effect.scan])
  | first :: rest =>
    match encodeParquet (inferSchema first) (first :: rest) with
    | .error e => (.error e, s3, [Effect.scan, Effect.encode])
    | .ok pq =>
      (.ok ⟨200, "Backup saved in Parquet format"⟩,
       S3State.put s3 bucketName "dynamodb_backup.parquet"
         ⟨pq, "application/octet-stream"⟩,
       [Effect.scan, Effect.encode,
        Effect.put bucketName "dynamodb_backup.parquet"])

/-- The process environment. -/
abbrev Environ := List (String × String)

/-- Lines 13-14, module initialization: `os.environ["TABLE_NAME"]` then
`os.environ["BUCKET_NAME"]`; a missing variable raises KeyError before
the handler can run. -/
def moduleInit (env : Environ) : Except String (String × String) :=
  match List.lookup "TABLE_NAME" env with
  | none => .error "KeyError: TABLE_NAME"
  | some t =>
    match List.lookup "BUCKET_NAME" env with
    | none => .error "KeyError: BUCKET_NAME"
    | some b => .ok (t, b)

/-- One whole invocation of the program: module initialization (reading
the two required environment variables), then the handler run against the
response of scanning the configured table.  A module-initialization error
leaves the store untouched and performs no effect at all. -/
def runLambda {E C : Type} (env : Environ) (db : String → DynamoTable)
    (s3 : S3State) (event : E) (context : C) :
    Except String HandlerResult × S3State × List Effect :=
  match moduleInit env with
  | .error e => (.error e, s3, [])
  | .ok (tableName, bucketName) =>
    lambda_handler bucketName event context (DynamoTable.scan (db tableName)) s3

/-! Helper lemmas about the embedded definitions. -/

/-- Dispatch: if the scan response yields no items (after the `get`
default), the handler takes the short-circuit branch. -/
theorem handler_data_nil {E C : Type} (bucket : String) (event : E) (context : C)
    (response : ScanResponse) (s3 : S3State)
    (h : response.Items.getD [] = []) :
    lambda_handler bucket event context response s3 =
      (.ok ⟨200, "No data to backup"⟩, s3, [Effect.scan]) := by
  obtain ⟨items⟩ := response
  cases items with
  | none => rfl
  | some l =>
    simp only [Option.getD_some] at h
    subst h
    rfl

/-- Dispatch: if the scan response yields a non-empty item list, the
handler proceeds to the encoding step on exactly that list. -/
theorem handler_data_cons {E C : Type} (bucket : String) (event : E) (context : C)
    (response : ScanResponse) (s3 : S3State) (first : Record) (rest : List Record)
    (h : response.Items.getD [] = first :: rest) :
    lambda_handler bucket event context response s3 =
      (match encodeParquet (inferSchema first) (first :: rest) with
       | .error e => (.error e, s3, [Effect.scan, Effect.encode])
       | .ok pq =>
         (.ok ⟨200, "Backup saved in Parquet format"⟩,
          S3State.put s3 bucket "dynamodb_backup.parquet"
            ⟨pq, "application/octet-stream"⟩,
          [Effect.scan, Effect.encode,
           Effect.put bucket "dynamodb_backup.parquet"])) := by
  obtain ⟨items⟩ := response
  cases items with
  | none => simp at h
  | some l =>
    simp only [Option.getD_some] at h
    subst h
    rfl

/-- The store after a put holds the new object under the written key. -/
theorem S3State.get_put (s : S3State) (bucket key : String) (o : S3Object) :
    S3State.get (S3State.put s bucket key o) bucket key = some o := by
  simp [S3State.get, S3State.put]

/-- A successful encoding embeds exactly the given schema in the buffer. -/
theorem encodeParquet_ok_schema (schema : List StructField) (data : List Record)
    (pq : ParquetFile) (h : encodeParquet schema data = .ok pq) :
    pq.schema = schema := by
  unfold encodeParquet at h
  split at h
  · cases h; rfl
  · cases h

/-- A successful encoding encodes exactly the given rows. -/
theorem encodeParquet_ok_rows (schema : List StructField) (data : List Record)
    (pq : ParquetFile) (h : encodeParquet schema data = .ok pq) :
    pq.rows = data.map (encodeRow schema) := by
  unfold encodeParquet at h
  split at h
  · cases h; rfl
  · cases h

/-- When every row's key set coincides with the schema's, encoding
succeeds with the evident buffer. -/
theorem encodeParquet_eq_ok (schema : List StructField) (data : List Record)
    (h : ∀ r ∈ data, (∀ k ∈ r.map Prod.fst, k ∈ schema.map StructField.name) ∧
        (∀ n ∈ schema.map StructField.name, n ∈ r.map Prod.fst)) :
    encodeParquet schema data = .ok ⟨schema, data.map (encodeRow schema)⟩ := by
  unfold encodeParquet
  rw [if_pos]
  simp only [List.all_eq_true, keySetEq, decide_eq_true_eq]
  exact h

/-- The inferred schema's field names are the first record's keys, in
order. -/
theorem inferSchema_names (r : Record) :
    (inferSchema r).map StructField.name = r.map Prod.fst := by
  simp [inferSchema, List.map_map, Function.comp]

/-- A key present among a record's keys has a value under lookup. -/
theorem lookup_isSome_of_mem_keys (r : Record) (k : String)
    (h : k ∈ r.map Prod.fst) : (List.lookup k r).isSome := by
  induction r with
  | nil => simp at h
  | cons p tl ih =>
    simp only [List.map_cons, List.mem_cons] at h
    by_cases hk : k = p.1
    · simp [List.lookup, hk]
    · have hb : (k == p.1) = false := beq_eq_false_iff_ne.mpr hk
      simp only [List.lookup, hb]
      exact ih (h.resolve_left hk)

/-- A key absent from a record's keys has no value under lookup. -/
theorem lookup_eq_none_of_not_mem_keys (r : Record) (k : String)
    (h : k ∉ r.map Prod.fst) : List.lookup k r = none := by
  induction r with
  | nil => rfl
  | cons p tl ih =>
    simp only [List.map_cons, List.mem_cons, not_or] at h
    have hb : (k == p.1) = false := beq_eq_false_iff_ne.mpr h.1
    simp only [List.lookup, hb]
    exact ih h.2

/-- Decoding an encoded row recovers exactly the record's values on the
schema's field names, and nothing elsewhere. -/
theorem lookup_decodeRow_encodeRow (schema : List StructField) (r : Record)
    (hsub : ∀ f ∈ schema, f.name ∈ r.map Prod.fst) (k : String) :
    List.lookup k (decodeRow schema (encodeRow schema r)) =
      if k ∈ schema.map StructField.name then List.lookup k r else none := by
  induction schema with
  | nil => simp [decodeRow, encodeRow]
  | cons f fs ih =>
    have hf : (List.lookup f.name r).isSome :=
      lookup_isSome_of_mem_keys r f.name (hsub f (by simp))
    obtain ⟨v, hv⟩ := Option.isSome_iff_exists.mp hf
    have ihs : ∀ g ∈ fs, g.name ∈ r.map Prod.fst :=
      fun g hg => hsub g (by simp [hg])
    by_cases hk : k = f.name
    · subst hk
      simp [decodeRow, encodeRow, hv, List.lookup]
    · have hb : (k == f.name) = false := beq_eq_false_iff_ne.mpr hk
      simp only [decodeRow, encodeRow, List.map_cons, List.zip_cons_cons,
        List.filterMap_cons, hv, Option.map_some, List.lookup, hb, List.mem_cons]
      rw [← encodeRow, ← decodeRow, ih ihs]
      simp [hk]

/-- Pointwise round trip for one row whose key set coincides with the
first record's: decoding its encoded form preserves every lookup. -/
theorem row_roundtrip (first r : Record)
    (h1 : ∀ k ∈ r.map Prod.fst, k ∈ first.map Prod.fst)
    (h2 : ∀ k ∈ first.map Prod.fst, k ∈ r.map Prod.fst) (k : String) :
    List.lookup k (decodeRow (inferSchema first) (encodeRow (inferSchema first) r)) =
      List.lookup k r := by
  have hsub : ∀ f ∈ inferSchema first, f.name ∈ r.map Prod.fst := by
    intro f hf
    refine h2 f.name ?_
    rw [← inferSchema_names]
    exact List.mem_map.mpr ⟨f, hf, rfl⟩
  rw [lookup_decodeRow_encodeRow _ _ hsub, inferSchema_names]
  by_cases hk : k ∈ first.map Prod.fst
  · rw [if_pos hk]
  · rw [if_neg hk]
    exact (lookup_eq_none_of_not_mem_keys r k (fun hm => hk (h1 k hm))).symm

/-- Mapping a function over a list yields a list pointwise related to the
original whenever the function satisfies the relation on every element. -/
theorem forall₂_map_self {α β : Type} (R : β → α → Prop) (g : α → β) (l : List α)
    (h : ∀ a ∈ l, R (g a) a) : List.Forall₂ R (l.map g) l := by
  induction l with
  | nil => exact List.Forall₂.nil
  | cons a tl ih =>
    exact List.Forall₂.cons (h a (by simp)) (ih fun b hb => h b (by simp [hb]))

/-- Dispatch: a non-empty scan whose encoding succeeds ends in the write
branch, with the buffer stored under the fixed key. -/
theorem handler_writes {E C : Type} (bucket : String) (event : E) (context : C)
    (response : ScanResponse) (s3 : S3State) (first : Record) (rest : List Record)
    (pq : ParquetFile)
    (h : response.Items.getD [] = first :: rest)
    (henc : encodeParquet (inferSchema first) (first :: rest) = .ok pq) :
    lambda_handler bucket event context response s3 =
      (.ok ⟨200, "Backup saved in Parquet format"⟩,
       S3State.put s3 bucket "dynamodb_backup.parquet"
         ⟨pq, "application/octet-stream"⟩,
       [Effect.scan, Effect.encode,
        Effect.put bucket "dynamodb_backup.parquet"]) := by
  rw [handler_data_cons bucket event context response s3 first rest h, henc]

/-! The claims. -/

/-- C3: for an empty source table (the scan returns zero items), the
handler returns a success result with status code 200 and the "no data"
message, leaves the object store unchanged, and performs neither an
encoding step nor a write. -/
theorem c3_empty_table_no_write {E C : Type} (bucket : String) (event : E)
    (context : C) (response : ScanResponse) (s3 : S3State)
    (h : response.Items = some []) :
    lambda_handler bucket event context response s3 =
      (.ok ⟨200, "No data to backup"⟩, s3, [Effect.scan]) ∧
    Effect.encode ∉ (lambda_handler bucket event context response s3).2.2 ∧
    ∀ b k, Effect.put b k ∉ (lambda_handler bucket event context response s3).2.2 := by
  have he := handler_data_nil bucket event context response s3 (by rw [h]; rfl)
  refine ⟨he, ?_, ?_⟩ <;> rw [he] <;> simp

theorem c3_empty_table_no_write_witness :
    lambda_handler "b" 0 0 ⟨some []⟩ ([] : S3State) =
      (.ok ⟨200, "No data to backup"⟩, [], [Effect.scan]) ∧
    Effect.encode ∉ (lambda_handler "b" 0 0 ⟨some []⟩ ([] : S3State)).2.2 ∧
    ∀ b k, Effect.put b k ∉ (lambda_handler "b" 0 0 ⟨some []⟩ ([] : S3State)).2.2 :=
  c3_empty_table_no_write "b" 0 0 ⟨some []⟩ [] rfl

/-- C10: a scan response lacking the "Items" field entirely is treated
identically to an empty table: the handler defaults the record set to the
empty list and returns the 200 "no data" result without writing. -/
theorem c10_missing_items_as_empty {E C : Type} (bucket : String) (event : E)
    (context : C) (response : ScanResponse) (s3 : S3State)
    (h : response.Items = none) :
    lambda_handler bucket event context response s3 =
      lambda_handler bucket event context ⟨some []⟩ s3 ∧
    lambda_handler bucket event context response s3 =
      (.ok ⟨200, "No data to backup"⟩, s3, [Effect.scan]) := by
  have h1 := handler_data_nil bucket event context response s3 (by rw [h]; rfl)
  have h2 := handler_data_nil bucket event context ⟨some []⟩ s3 rfl
  exact ⟨h1.trans h2.symm, h1⟩

theorem c10_missing_items_as_empty_witness :
    lambda_handler "b" 0 0 ⟨none⟩ ([] : S3State) =
      lambda_handler "b" 0 0 ⟨some []⟩ ([] : S3State) ∧
    lambda_handler "b" 0 0 ⟨none⟩ ([] : S3State) =
      (.ok ⟨200, "No data to backup"⟩, [], [Effect.scan]) :=
  c10_missing_items_as_empty "b" 0 0 ⟨none⟩ [] rfl

/-- C9: the event payload and context object do not influence the
invocation: over the same environment, table contents and store state,
any two event/context values (even of different types) give the same
result, final store and effect trace. -/
theorem c9_event_context_unused {E C E' C' : Type} (event : E) (context : C)
    (event' : E') (context' : C') (env : Environ) (db : String → DynamoTable)
    (s3 : S3State) :
    runLambda env db s3 event context = runLambda env db s3 event' context' := rfl

/-- C8: if TABLE_NAME or BUCKET_NAME is absent from the environment, the
program fails fatally at module initialization: the invocation ends in an
error, the store is unchanged, and no effect (no table read, no write) is
performed. -/
theorem c8_missing_config_fails_fast {E C : Type} (env : Environ)
    (db : String → DynamoTable) (s3 : S3State) (event : E) (context : C)
    (h : List.lookup "TABLE_NAME" env = none ∨
         List.lookup "BUCKET_NAME" env = none) :
    ∃ e, runLambda env db s3 event context = (.error e, s3, []) := by
  rcases h with h | h
  · exact ⟨"KeyError: TABLE_NAME", by simp [runLambda, moduleInit, h]⟩
  · cases ht : List.lookup "TABLE_NAME" env with
    | none => exact ⟨"KeyError: TABLE_NAME", by simp [runLambda, moduleInit, ht]⟩
    | some t => exact ⟨"KeyError: BUCKET_NAME", by simp [runLambda, moduleInit, ht, h]⟩

theorem c8_missing_config_fails_fast_witness :
    ∃ e, runLambda [("BUCKET_NAME", "b")] (fun _ => ⟨[]⟩) ([] : S3State) 0 0 =
      (.error e, [], []) :=
  c8_missing_config_fails_fast [("BUCKET_NAME", "b")] (fun _ => ⟨[]⟩) [] 0 0
    (Or.inl rfl)

/-- C5: if the columnar encoding step fails, the invocation fails fatally
with that error, the object store is unchanged, and no write effect is
performed (no partial snapshot). -/
theorem c5_encode_error_no_write {E C : Type} (bucket : String) (event : E)
    (context : C) (response : ScanResponse) (s3 : S3State) (first : Record)
    (rest : List Record) (e : String)
    (hdata : response.Items = some (first :: rest))
    (henc : encodeParquet (inferSchema first) (first :: rest) = .error e) :
    lambda_handler bucket event context response s3 =
      (.error e, s3, [Effect.scan, Effect.encode]) ∧
    ∀ b k, Effect.put b k ∉ (lambda_handler bucket event context response s3).2.2 := by
  have he : lambda_handler bucket event context response s3 =
      (.error e, s3, [Effect.scan, Effect.encode]) := by
    rw [handler_data_cons bucket event context response s3 first rest
      (by rw [hdata]; rfl), henc]
  refine ⟨he, ?_⟩
  rw [he]
  simp

theorem c5_encode_error_no_write_witness :
    lambda_handler "b" 0 0
        ⟨some [[("id", "1")], [("id", "2"), ("extra", "x")]]⟩ ([] : S3State) =
      (.error "serialization error: row shape conflicts with the inferred schema",
       [], [Effect.scan, Effect.encode]) ∧
    ∀ b k, Effect.put b k ∉
      (lambda_handler "b" 0 0
        ⟨some [[("id", "1")], [("id", "2"), ("extra", "x")]]⟩ ([] : S3State)).2.2 :=
  c5_encode_error_no_write "b" 0 0
    ⟨some [[("id", "1")], [("id", "2"), ("extra", "x")]]⟩ [] [("id", "1")]
    [[("id", "2"), ("extra", "x")]] _ rfl rfl

/-- C6: whenever an invocation performs a write, the destination key is
exactly "dynamodb_backup.parquet" and the object stored there declares
content type "application/octet-stream". -/
theorem c6_fixed_key_and_content_type {E C : Type} (bucket : String) (event : E)
    (context : C) (response : ScanResponse) (s3 : S3State) (b k : String)
    (h : Effect.put b k ∈ (lambda_handler bucket event context response s3).2.2) :
    k = "dynamodb_backup.parquet" ∧
    ∃ o, S3State.get (lambda_handler bucket event context response s3).2.1 b k =
        some o ∧
      o.contentType = "application/octet-stream" := by
  cases hd : response.Items.getD [] with
  | nil =>
    rw [handler_data_nil bucket event context response s3 hd] at h
    simp at h
  | cons first rest =>
    have hc := handler_data_cons bucket event context response s3 first rest hd
    cases henc : encodeParquet (inferSchema first) (first :: rest) with
    | error e =>
      rw [hc, henc] at h
      simp at h
    | ok pq =>
      rw [henc] at hc
      rw [hc] at h ⊢
      simp only [List.mem_cons, List.not_mem_nil, or_false] at h
      rcases h with h | h | h
      · cases h
      · cases h
      · obtain ⟨hb, hk⟩ := Effect.put.inj h
        subst hb
        subst hk
        exact ⟨rfl, ⟨pq, "application/octet-stream"⟩,
          S3State.get_put _ _ _ _, rfl⟩

theorem c6_fixed_key_and_content_type_witness :
    "dynamodb_backup.parquet" = "dynamodb_backup.parquet" ∧
    ∃ o, S3State.get
        (lambda_handler "b" 0 0 ⟨some [[("id", "1")]]⟩ ([] : S3State)).2.1
        "b" "dynamodb_backup.parquet" = some o ∧
      o.contentType = "application/octet-stream" :=
  c6_fixed_key_and_content_type "b" 0 0 ⟨some [[("id", "1")]]⟩ []
    "b" "dynamodb_backup.parquet" (by decide)

/-- C1: for a non-empty scan result whose rows all share the first row's
key set, the handler succeeds, writes the encoded buffer under the fixed
key, every schema field is typed string, and the stored buffer decodes
back to the same records (pointwise-equal as field-to-value mappings, row
for row), whatever the row order of the input. -/
theorem c1_uniform_roundtrip {E C : Type} (bucket : String) (event : E)
    (context : C) (response : ScanResponse) (s3 : S3State) (first : Record)
    (rest : List Record)
    (hdata : response.Items = some (first :: rest))
    (huniform : ∀ r ∈ first :: rest,
      (∀ k ∈ r.map Prod.fst, k ∈ first.map Prod.fst) ∧
      (∀ k ∈ first.map Prod.fst, k ∈ r.map Prod.fst)) :
    ∃ pq : ParquetFile,
      lambda_handler bucket event context response s3 =
        (.ok ⟨200, "Backup saved in Parquet format"⟩,
         S3State.put s3 bucket "dynamodb_backup.parquet"
           ⟨pq, "application/octet-stream"⟩,
         [Effect.scan, Effect.encode,
          Effect.put bucket "dynamodb_backup.parquet"]) ∧
      (∀ f ∈ pq.schema, f.dataType = DataType.StringType) ∧
      List.Forall₂ (fun d r => ∀ k, List.lookup k d = List.lookup k r)
        (decodeParquet pq) (first :: rest) := by
  have henc : encodeParquet (inferSchema first) (first :: rest) =
      .ok ⟨inferSchema first, (first :: rest).map (encodeRow (inferSchema first))⟩ := by
    apply encodeParquet_eq_ok
    intro r hr
    rw [inferSchema_names]
    exact huniform r hr
  refine ⟨_, handler_writes bucket event context response s3 first rest _
    (by rw [hdata]; rfl) henc, ?_, ?_⟩
  · intro f hf
    simp only [inferSchema, List.mem_map] at hf
    obtain ⟨kv, _, rfl⟩ := hf
    rfl
  · simp only [decodeParquet, List.map_map]
    apply forall₂_map_self
    intro r hr k
    exact row_roundtrip first r (huniform r hr).1 (huniform r hr).2 k

theorem c1_uniform_roundtrip_witness :
    ∃ pq : ParquetFile,
      lambda_handler "b" 0 0
          ⟨some [[("id", "1"), ("name", "a")], [("id", "2"), ("name", "b")]]⟩
          ([] : S3State) =
        (.ok ⟨200, "Backup saved in Parquet format"⟩,
         S3State.put [] "b" "dynamodb_backup.parquet"
           ⟨pq, "application/octet-stream"⟩,
         [Effect.scan, Effect.encode,
          Effect.put "b" "dynamodb_backup.parquet"]) ∧
      (∀ f ∈ pq.schema, f.dataType = DataType.StringType) ∧
      List.Forall₂ (fun d r => ∀ k, List.lookup k d = List.lookup k r)
        (decodeParquet pq)
        [[("id", "1"), ("name", "a")], [("id", "2"), ("name", "b")]] :=
  c1_uniform_roundtrip "b" 0 0
    ⟨some [[("id", "1"), ("name", "a")], [("id", "2"), ("name", "b")]]⟩ []
    [("id", "1"), ("name", "a")] [[("id", "2"), ("name", "b")]] rfl (by decide)

/-- C4: for every non-empty input, the schema embedded in the written
buffer is the ordered sequence of the first record's field names, every
field typed string and nullable; and two inputs sharing the first record
(with any later records) yield the same embedded schema. -/
theorem c4_schema_from_first_record_only {E C : Type} (bucket : String)
    (event : E) (context : C) (s3 s3' : S3State)
    (response response' : ScanResponse) (first : Record)
    (rest rest' : List Record) (pq pq' : ParquetFile)
    (hdata : response.Items = some (first :: rest))
    (henc : encodeParquet (inferSchema first) (first :: rest) = .ok pq)
    (hdata' : response'.Items = some (first :: rest'))
    (henc' : encodeParquet (inferSchema first) (first :: rest') = .ok pq') :
    ∃ o, S3State.get (lambda_handler bucket event context response s3).2.1
        bucket "dynamodb_backup.parquet" = some o ∧
      o.body.schema.map StructField.name = first.map Prod.fst ∧
      (∀ f ∈ o.body.schema, f.dataType = DataType.StringType ∧ f.nullable = true) ∧
      ∃ o', S3State.get (lambda_handler bucket event context response' s3').2.1
          bucket "dynamodb_backup.parquet" = some o' ∧
        o'.body.schema = o.body.schema := by
  have hw := handler_writes bucket event context response s3 first rest pq
    (by rw [hdata]; rfl) henc
  have hw' := handler_writes bucket event context response' s3' first rest' pq'
    (by rw [hdata']; rfl) henc'
  rw [hw, hw']
  have hs : pq.schema = inferSchema first := encodeParquet_ok_schema _ _ _ henc
  have hs' : pq'.schema = inferSchema first := encodeParquet_ok_schema _ _ _ henc'
  refine ⟨⟨pq, "application/octet-stream"⟩, S3State.get_put _ _ _ _, ?_, ?_,
    ⟨pq', "application/octet-stream"⟩, S3State.get_put _ _ _ _, ?_⟩
  · rw [hs, inferSchema_names]
  · intro f hf
    rw [hs] at hf
    simp only [inferSchema, List.mem_map] at hf
    obtain ⟨kv, _, rfl⟩ := hf
    exact ⟨rfl, rfl⟩
  · rw [hs, hs']

theorem c4_schema_from_first_record_only_witness :
    ∃ o, S3State.get
        (lambda_handler "b" 0 0 ⟨some [[("id", "1"), ("name", "a")]]⟩
          ([] : S3State)).2.1 "b" "dynamodb_backup.parquet" = some o ∧
      o.body.schema.map StructField.name =
        ([("id", "1"), ("name", "a")] : Record).map Prod.fst ∧
      (∀ f ∈ o.body.schema, f.dataType = DataType.StringType ∧ f.nullable = true) ∧
      ∃ o', S3State.get
          (lambda_handler "b" 0 0
            ⟨some [[("id", "1"), ("name", "a")], [("id", "2"), ("name", "b")]]⟩
            ([] : S3State)).2.1 "b" "dynamodb_backup.parquet" = some o' ∧
        o'.body.schema = o.body.schema :=
  c4_schema_from_first_record_only "b" 0 0 [] []
    ⟨some [[("id", "1"), ("name", "a")]]⟩
    ⟨some [[("id", "1"), ("name", "a")], [("id", "2"), ("name", "b")]]⟩
    [("id", "1"), ("name", "a")] [] [[("id", "2"), ("name", "b")]] _ _
    rfl rfl rfl rfl

/-- C7: a writing invocation replaces the whole object at the fixed key:
whatever the initial store and whatever an earlier invocation did to it,
after a second invocation that scans a non-empty table and encodes
successfully, the object at the key is exactly that second invocation's
snapshot, so reading the snapshot back yields what the last writer
wrote. -/
theorem c7_overwrite_last_writer_wins {E C E' C' : Type} (bucket : String)
    (event : E) (context : C) (event' : E') (context' : C') (s3 : S3State)
    (response response' : ScanResponse) (first' : Record) (rest' : List Record)
    (pq' : ParquetFile)
    (hdata' : response'.Items = some (first' :: rest'))
    (henc' : encodeParquet (inferSchema first') (first' :: rest') = .ok pq') :
    S3State.get
        (lambda_handler bucket event' context' response'
          (lambda_handler bucket event context response s3).2.1).2.1
        bucket "dynamodb_backup.parquet" =
      some ⟨pq', "application/octet-stream"⟩ := by
  rw [handler_writes bucket event' context' response'
    (lambda_handler bucket event context response s3).2.1 first' rest' pq'
    (by rw [hdata']; rfl) henc']
  exact S3State.get_put _ _ _ _

theorem c7_overwrite_last_writer_wins_witness :
    S3State.get
        (lambda_handler "b" 0 0 ⟨some [[("id", "2")]]⟩
          (lambda_handler "b" 0 0 ⟨some [[("id", "1")]]⟩ ([] : S3State)).2.1).2.1
        "b" "dynamodb_backup.parquet" =
      some ⟨⟨[⟨"id", DataType.StringType, true⟩], [[some "2"]]⟩,
        "application/octet-stream"⟩ :=
  c7_overwrite_last_writer_wins "b" 0 0 0 0 []
    ⟨some [[("id", "1")]]⟩ ⟨some [[("id", "2")]]⟩ [("id", "2")] [] _ rfl rfl

/-- C2 fails as stated: on a table whose scan paginates into two pages,
the written snapshot decodes to the first page only, not to the table's
full contents. -/
theorem c2_counterexample :
    (S3State.get (runLambda [("TABLE_NAME", "t"), ("BUCKET_NAME", "b")]
          (fun _ => (⟨[[[("id", "1")]], [[("id", "2")]]]⟩ : DynamoTable))
          ([] : S3State) 0 0).2.1
        "b" "dynamodb_backup.parquet").map (fun o => decodeParquet o.body) ≠
      some (DynamoTable.allItems ⟨[[[("id", "1")]], [[("id", "2")]]]⟩) ∧
    (S3State.get (runLambda [("TABLE_NAME", "t"), ("BUCKET_NAME", "b")]
          (fun _ => (⟨[[[("id", "1")]], [[("id", "2")]]]⟩ : DynamoTable))
          ([] : S3State) 0 0).2.1
        "b" "dynamodb_backup.parquet").map (fun o => decodeParquet o.body) =
      some [[("id", "1")]] ∧
    DynamoTable.allItems ⟨[[[("id", "1")]], [[("id", "2")]]]⟩ =
      [[("id", "1")], [("id", "2")]] := by
  refine ⟨?_, rfl, rfl⟩
  decide

/-- C2 amended: the record set exported to the snapshot is exactly the
first page of items returned by the single scan call; continuation pages
of a truncated scan are never fetched, whatever they contain. -/
theorem c2_first_page_only {E C : Type} (env : Environ)
    (db : String → DynamoTable) (s3 : S3State) (event : E) (context : C)
    (t b : String) (first : Record) (rest : List Record) (pq : ParquetFile)
    (ht : List.lookup "TABLE_NAME" env = some t)
    (hb : List.lookup "BUCKET_NAME" env = some b)
    (hpage : (db t).pages.headD [] = first :: rest)
    (henc : encodeParquet (inferSchema first) (first :: rest) = .ok pq) :
    S3State.get (runLambda env db s3 event context).2.1
        b "dynamodb_backup.parquet" =
      some ⟨pq, "application/octet-stream"⟩ := by
  have hmi : moduleInit env = .ok (t, b) := by
    simp [moduleInit, ht, hb]
  simp only [runLambda, hmi]
  rw [handler_writes b event context (DynamoTable.scan (db t)) s3 first rest pq
    (by simp only [DynamoTable.scan, Option.getD_some]; exact hpage) henc]
  exact S3State.get_put _ _ _ _

theorem c2_first_page_only_witness :
    S3State.get
        (runLambda [("TABLE_NAME", "t"), ("BUCKET_NAME", "b")]
          (fun _ => (⟨[[[("id", "1")]], [[("id", "2")]]]⟩ : DynamoTable))
          ([] : S3State) 0 0).2.1
        "b" "dynamodb_backup.parquet" =
      some ⟨⟨[⟨"id", DataType.StringType, true⟩], [[some "1"]]⟩,
        "application/octet-stream"⟩ :=
  c2_first_page_only [("TABLE_NAME", "t"), ("BUCKET_NAME", "b")]
    (fun _ => (⟨[[[("id", "1")]], [[("id", "2")]]]⟩ : DynamoTable)) [] 0 0
    "t" "b" [("id", "1")] [] _ rfl rfl rfl rfl

end SnapshotExporter
